import Mathlib

set_option maxRecDepth 100000

/-!
# A verification development for `daemon` (src/main.c)

The program is a small double-forking daemon: it writes `daemon.pid`, redirects its
output to `daemon.log`, listens on 127.0.0.1:8042 and logs every chunk it reads from one
client at a time until a chunk is the command `quit` or a signal arrives.

The embedding is shallow.  Globals (`sock_fd`, `log_file`) and the part of the outside
world the program changes (the PID marker file, the sequence of calls it makes) live in
an explicit `State`.  The results of the calls whose return value the program inspects
are an input: a script, one `Sys` record per call, consumed in program order.  When the
script runs out the process is left waiting in the call it was about to complete, so the
prefixes of a script enumerate the states the process passes through.
-/

namespace Daemon

/-! ## Bytes and C strings -/

/-- One `char` of the program, as an unsigned value. -/
abbrev Byte := Fin 256

/-- The bytes of an ASCII string literal of the source (without the terminating NUL). -/
def str (s : String) : List Byte := s.toList.map (fun c => Fin.ofNat c.toNat)

/-- The C string that starts at the beginning of a region of memory: the bytes before
the first NUL. -/
def cstr : List Byte → List Byte
  | [] => []
  | b :: p => if b = 0 then [] else b :: cstr p

/-- The libc function `strlen`. -/
def strlen (p : List Byte) : Nat := (cstr p).length

/-- The libc function `strcmp` on two regions of memory; the end of a region reads as
NUL.  The result is the difference of the first two bytes that differ, as unsigned
chars, and 0 when the two C strings are equal. -/
def strcmp : List Byte → List Byte → Int
  | [], [] => 0
  | [], b :: _ => - (b.val : Int)
  | a :: _, [] => (a.val : Int)
  | a :: as, b :: bs =>
    if a ≠ b then (a.val : Int) - (b.val : Int)
    else if a = 0 then 0
    else strcmp as bs

/-- The `%d` conversion of `printf`. -/
def fmt_d (n : Int) : List Byte := str (toString n)

/-! ## Constants of the system headers and of the source -/

def EXIT_SUCCESS : Int := 0
def EXIT_FAILURE : Int := 1
def NULL : Int := 0
def SIGHUP : Int := 1
def SIGINT : Int := 2
def SIGTERM : Int := 15
def STDOUT_FILENO : Int := 1
def STDERR_FILENO : Int := 2

/-- The declared size of `char buffer[1024]`. -/
def BUFFER_SIZE : Nat := 1024

/-! ## `log_info` (src/main.c 20-32) -/

/-- The bytes one call of `log_info` writes to standard output.  `now_string` is the
string `ctime` returned and `message` is what `vprintf` prints for the format and its
arguments.  The result is `none` when the index `strlen(now_string) - 2` wraps around
(the write is then outside the string). -/
def log_info (now_string : List Byte) (message : List Byte) : Option (List Byte) :=
  if strlen now_string < 2 then none
  else
    let now_string := now_string.set (strlen now_string - 2) 0
    some (cstr now_string ++ str " - " ++ message ++ str "\n")

/-! ## The process state -/

/-- The calls whose result `main` inspects. -/
inductive Call where
  | fork
  | setsid
  | open
  | fdopen
  | fopen
  | socket
  | bind
  | listen
  | accept
  | read (fd : Int)
  deriving DecidableEq, Repr

/-- What the process does to the outside world, in program order. -/
inductive Effect where
  /-- A call of `log_info` whose formatted message is `message`. -/
  | log_info (message : List Byte)
  /-- A call whose result is inspected has returned. -/
  | sys (c : Call)
  /-- The call `fprintf(pid_file, "%d", pid)`, with the text printed. -/
  | fprintf_pid (text : List Byte)
  | fclose (stream : Int)
  /-- The call `setlinebuf` on the log file (0), `stdout` (1) or `stderr` (2). -/
  | setlinebuf (which : Int)
  /-- The call `dup2(log_fd, newfd)`. -/
  | dup2_log (newfd : Int)
  /-- The call `signal(signum, signal_handler)`. -/
  | signal (signum : Int)
  | setsockopt (fd : Int)
  | close (fd : Int)
  /-- The call `remove(pid_file_path)`. -/
  | remove_pid
  /-- Bytes sent on a descriptor.  No statement of the program produces it. -/
  | write (fd : Int) (bytes : List Byte)
  | exit (code : Int)
  deriving DecidableEq, Repr

/-- Where the process is. -/
inductive Status where
  | running
  /-- In the call `c`, whose result has not arrived. -/
  | waiting (c : Call)
  | exited (code : Int)
  /-- Stopped by the failed `assert`. -/
  | aborted
  /-- Ended by the default action of a signal without a handler. -/
  | killed (signum : Int)
  /-- A buffer access outside `buffer` happened. -/
  | undefined
  deriving DecidableEq, Repr

/-- The globals of the program, the PID marker file, and the record of what happened. -/
structure State where
  /-- The global `sock_fd`, initially -1. -/
  sock_fd : Int
  /-- The global `log_file` as an address, initially `NULL`. -/
  log_file : Int
  /-- The content of `daemon.pid`, when the file exists. -/
  pid_file : Option (List Byte)
  /-- The calls made so far. -/
  trace : List Effect
  /-- The indices of `buffer` evaluated so far. -/
  indexed : List Int
  status : Status
  deriving DecidableEq, Repr

/-- The state at the entry of `main`, given the PID marker file found on disk. -/
def State.init (pid_file : Option (List Byte)) : State :=
  { sock_fd := -1, log_file := NULL, pid_file := pid_file, trace := [], indexed := [],
    status := .running }

/-- Record one effect. -/
def State.emit (s : State) (e : Effect) : State := { s with trace := s.trace ++ [e] }

/-- The libc function `exit`; also the `return` of `main`. -/
def exit (code : Int) (s : State) : State :=
  { s with trace := s.trace ++ [.exit code], status := .exited code }

/-- The result of one inspected call: the value returned, the bytes stored (for
`read`), and `strerror(errno)` after the call. -/
structure Sys where
  ret : Int
  data : List Byte := []
  err : List Byte := []
  deriving DecidableEq, Repr

/-- Make the call `c`: with no result in the script the process waits in the call,
otherwise the program continues with the result. -/
def sys (c : Call) (s : State) (script : List Sys)
    (k : Sys → State → List Sys → State) : State :=
  match script with
  | [] => { s with status := .waiting c }
  | r :: script => k r (s.emit (.sys c)) script

/-! ## `cleanup`, `die`, `signal_handler` (src/main.c 34-57) -/

def cleanup (s : State) : State :=
  let s := s.emit (.log_info (str "Cleanup"))
  let s := if s.sock_fd ≠ -1 then s.emit (.close s.sock_fd) else s
  let s := if s.log_file ≠ NULL then s.emit (.fclose s.log_file) else s
  { s with pid_file := none, trace := s.trace ++ [.remove_pid] }

/-- The function `die`; `err` is `strerror(errno)` at the call. -/
def die (message : String) (err : List Byte) (s : State) : State :=
  let s := s.emit (.log_info (str "Error: " ++ str message ++ str ": " ++ cstr err))
  let s := cleanup s
  exit EXIT_FAILURE s

def signal_handler (signum : Int) (s : State) : State :=
  let s := s.emit (.log_info (str "Received signal: " ++ fmt_d signum))
  let s := cleanup s
  let s := s.emit (.log_info (str "Quitting after signal"))
  exit EXIT_SUCCESS s

/-- Whether `signal(signum, signal_handler)` has been called. -/
def handler_installed (signum : Int) (s : State) : Bool :=
  decide (Effect.signal signum ∈ s.trace)

/-- Whether the process has not ended. -/
def alive (s : State) : Bool :=
  match s.status with
  | .running => true
  | .waiting _ => true
  | _ => false

/-- Delivery of a signal to the process: the handler runs when one is installed,
otherwise the default action of the three signals ends the process. -/
def deliver (signum : Int) (s : State) : State :=
  if alive s then
    if handler_installed signum s then signal_handler signum s
    else { s with status := .killed signum }
  else s

/-! ## The buffer of the serving loop -/

/-- The local `buffer`, with the indices evaluated on it and whether one of them was
outside the array. -/
structure Buf where
  bytes : List Byte
  accesses : List Int
  fault : Bool
  deriving DecidableEq, Repr

/-- The declaration `char buffer[1024]` followed by `memset(buffer, 0, sizeof buffer)`. -/
def Buf.zeroed : Buf := { bytes := List.replicate BUFFER_SIZE 0, accesses := [], fault := false }

/-- The bytes `read(client_fd, buffer, sizeof buffer - 1)` stores: at most
`sizeof buffer - 1` of them, from the start of the buffer. -/
def Buf.store (b : Buf) (data : List Byte) : Buf :=
  let data := data.take (BUFFER_SIZE - 1)
  { b with bytes := data ++ b.bytes.drop data.length }

/-- Whether `i` is an index of the array. -/
def Buf.inBounds (b : Buf) (i : Int) : Bool := 0 ≤ i && i < b.bytes.length

/-- The assignment `buffer[i] = v`. -/
def Buf.write (b : Buf) (i : Int) (v : Byte) : Buf :=
  { bytes := if b.inBounds i then b.bytes.set i.toNat v else b.bytes
    accesses := b.accesses ++ [i]
    fault := b.fault || !b.inBounds i }

/-- The expression `buffer[i]`. -/
def Buf.read (b : Buf) (i : Int) : Byte × Buf :=
  (b.bytes.getD i.toNat 0,
   { b with accesses := b.accesses ++ [i], fault := b.fault || !b.inBounds i })

/-- Lines 164-166: terminate the chunk and strip one trailing newline. -/
def terminate_and_strip (read_size : Int) (buffer : Buf) : Buf :=
  let buffer := buffer.write read_size 0
  let (last, buffer) := buffer.read (read_size - 1)
  if last = 10 then buffer.write (read_size - 1) 0 else buffer

/-! ## `main` (src/main.c 59-180) -/

/-- Lines 177-179, reached when the loop ends with `running == false`. -/
def epilogue (s : State) : State :=
  let s := cleanup s
  let s := s.emit (.log_info (str "Quitting after 'quit' command"))
  exit 0 s

/-- The loop of lines 146-175.  The first argument is the connected client when the
process is in the inner loop and `none` when it is at `accept`. -/
def serve : Option Int → State → List Sys → State
  | none, s, [] => { s with status := .waiting .accept }
  | none, s, r :: script =>
    let s := s.emit (.sys .accept)
    let client_fd := r.ret
    if client_fd = -1 then die "Failed to accept new client" r.err s
    else serve (some client_fd) s script
  | some client_fd, s, [] => { s with status := .waiting (.read client_fd) }
  | some client_fd, s, r :: script =>
    let s := s.emit (.sys (.read client_fd))
    let buffer := Buf.zeroed.store r.data
    let read_size := r.ret
    if read_size = -1 then die "Couldn't read from socket" r.err s
    else if read_size = 0 then
      let s := s.emit (.log_info (str "Client disconnected"))
      let s := s.emit (.close client_fd)
      serve none s script
    else
      let buffer := terminate_and_strip read_size buffer
      let s := { s with indexed := s.indexed ++ buffer.accesses }
      if buffer.fault then { s with status := .undefined }
      else
        let s := s.emit (.log_info (str "Read " ++ cstr buffer.bytes))
        if strcmp buffer.bytes (str "quit") = 0 then
          let s := s.emit (.close client_fd)
          epilogue s
        else serve (some client_fd) s script

/-- The function `main`, run by the process that `getpid` names `pid`, from the state
`s`, with the results of its calls in `script`. -/
def main (pid : Int) (s : State) (script : List Sys) : State :=
  sys .fork s script fun r s script =>
  let child_pid := r.ret
  if child_pid = -1 then
    exit EXIT_FAILURE (s.emit (.log_info (str "Error: Cannot fork: " ++ cstr r.err)))
  else if child_pid > 0 then exit EXIT_SUCCESS s
  else
  sys .setsid s script fun r s script =>
  if r.ret = -1 then
    exit EXIT_FAILURE (s.emit (.log_info (str "Error: setsid failed: " ++ cstr r.err)))
  else
  sys .fork s script fun r s script =>
  let child_pid := r.ret
  if child_pid = -1 then
    exit EXIT_FAILURE (s.emit (.log_info (str "Error: Cannot fork: " ++ cstr r.err)))
  else if child_pid > 0 then exit EXIT_SUCCESS s
  else
  sys .open s script fun r s script =>
  -- O_CREAT | O_EXCL: the call fails when the file exists
  let pid_fd := if s.pid_file.isSome then -1 else r.ret
  if pid_fd = -1 then
    exit EXIT_FAILURE
      (s.emit (.log_info (str "Error: Failed to open pid file: " ++ cstr r.err)))
  else
  let s := { s with pid_file := some [] }
  sys .fdopen s script fun r s script =>
  let pid_file := r.ret
  if pid_file = NULL then { s with status := .aborted }
  else
  let s := { s with pid_file := some (fmt_d pid) }
  let s := s.emit (.fprintf_pid (fmt_d pid))
  let s := s.emit (.fclose pid_file)
  sys .fopen s script fun r s script =>
  let s := { s with log_file := r.ret }
  if s.log_file = NULL then die "Failed to open log file" r.err s
  else
  let s := ((s.emit (.setlinebuf 0)).emit (.setlinebuf 1)).emit (.setlinebuf 2)
  let s := (s.emit (.dup2_log STDOUT_FILENO)).emit (.dup2_log STDERR_FILENO)
  let s := ((s.emit (.signal SIGHUP)).emit (.signal SIGINT)).emit (.signal SIGTERM)
  let s := s.emit (.log_info (str "Started"))
  sys .socket s script fun r s script =>
  let s := { s with sock_fd := r.ret }
  if s.sock_fd = -1 then die "Failed to create socket" r.err s
  else
  let s := s.emit (.setsockopt s.sock_fd)
  sys .bind s script fun r s script =>
  if r.ret = -1 then die "Failed to bind socket" r.err s
  else
  sys .listen s script fun r s script =>
  if r.ret = -1 then die "Failed to listen on socket" r.err s
  else
  let s := s.emit (.log_info (str "Waiting for a connection"))
  serve none s script

/-! ## Vocabulary of the statements -/

/-- The chunk with at most one trailing newline byte removed. -/
def strip_newline (chunk : List Byte) : List Byte :=
  if chunk.getLast? = some 10 then chunk.dropLast else chunk

/-- A result of `read` that carries a chunk: the value returned is the number of bytes
stored, between 1 and `sizeof buffer - 1`. -/
def Sys.isChunk (r : Sys) : Prop :=
  r.ret = (r.data.length : Int) ∧ 1 ≤ r.data.length ∧ r.data.length ≤ 1023

instance (r : Sys) : Decidable r.isChunk := by unfold Sys.isChunk; infer_instance

/-- The indices lines 164-166 evaluate, for a chunk. -/
def chunk_accesses (data : List Byte) : List Int :=
  if data.getLast? = some 10 then [(data.length : Int), (data.length : Int) - 1,
    (data.length : Int) - 1]
  else [(data.length : Int), (data.length : Int) - 1]

/-- The state after lines 153-167 on a chunk: the `read` has returned, lines 164-166
have evaluated their indices, and one line has been logged. -/
def after_chunk (client_fd : Int) (data : List Byte) (s : State) : State :=
  { s with
    trace := s.trace ++ [.sys (.read client_fd),
      .log_info (str "Read " ++ cstr (strip_newline data))]
    indexed := s.indexed ++ chunk_accesses data }

/-- What `cleanup` does, given the two globals it tests. -/
def cleanup_effects (sock_fd log_file : Int) : List Effect :=
  [.log_info (str "Cleanup")] ++ (if sock_fd ≠ -1 then [.close sock_fd] else []) ++
    (if log_file ≠ NULL then [.fclose log_file] else []) ++ [.remove_pid]

/-- The result `r` of the call `c` is a failure the program treats as fatal. -/
def Failed (c : Call) (r : Sys) (s : State) : Prop :=
  match c with
  | .fdopen => False
  | .fopen => r.ret = NULL
  | .open => s.pid_file.isSome = true ∨ r.ret = -1
  | _ => r.ret = -1

instance (c : Call) (r : Sys) (s : State) : Decidable (Failed c r s) := by
  unfold Failed; cases c <;> infer_instance

/-- The text the program logs when the call fails. -/
def error_text : Call → String
  | .fork => "Cannot fork"
  | .setsid => "setsid failed"
  | .open => "Failed to open pid file"
  | .fdopen => ""
  | .fopen => "Failed to open log file"
  | .socket => "Failed to create socket"
  | .bind => "Failed to bind socket"
  | .listen => "Failed to listen on socket"
  | .accept => "Failed to accept new client"
  | .read _ => "Couldn't read from socket"

/-- Whether a failure of the call goes through `die`, which runs `cleanup`. -/
def runs_cleanup : Call → Bool
  | .fork => false
  | .setsid => false
  | .open => false
  | _ => true

/-- The fatal-error policy: from the state `s` in which the process waits in the call
`c`, the call returns, the error is logged with the description of the OS error,
`cleanup` runs when the failure goes through `die`, and the process exits with
`EXIT_FAILURE`. -/
def fail_at (c : Call) (r : Sys) (s : State) : State :=
  { s with
    pid_file := if runs_cleanup c then none else s.pid_file
    trace := s.trace ++ [.sys c,
        .log_info (str "Error: " ++ str (error_text c) ++ str ": " ++ cstr r.err)] ++
      (if runs_cleanup c then cleanup_effects s.sock_fd s.log_file else []) ++
      [.exit EXIT_FAILURE]
    status := .exited EXIT_FAILURE }

/-- What holds of a program fragment that consumes a script: a script that leaves it
waiting in `accept` or `read` can be continued by the loop, a failing result in the call
it waits in gives the fatal-error policy, and once a handler is installed the log file
is open. -/
structure Sound (prog : List Sys → State) : Prop where
  accept : ∀ st rest, (prog st).status = .waiting .accept →
    prog (st ++ rest) = serve none (prog st) rest
  read : ∀ st fd rest, (prog st).status = .waiting (.read fd) →
    prog (st ++ rest) = serve (some fd) (prog st) rest
  fail : ∀ st c r rest, (prog st).status = .waiting c → Failed c r (prog st) →
    prog (st ++ r :: rest) = fail_at c r (prog st)
  handlers : ∀ st signum, handler_installed signum (prog st) = true →
    (prog st).log_file ≠ NULL
  exits : ∀ st code, Effect.exit code ∈ (prog st).trace → (prog st).status = .exited code

/-- The state before the log file is open: both globals have their initial value and
neither a handler was installed nor `exit` called. -/
def Early (s : State) : Prop :=
  s.log_file = NULL ∧ s.sock_fd = -1 ∧ (∀ signum, Effect.signal signum ∉ s.trace) ∧
    (∀ code, Effect.exit code ∉ s.trace)

/-- The state once the log file is open. -/
def Late (s : State) : Prop :=
  s.log_file ≠ NULL ∧ (∀ code, Effect.exit code ∉ s.trace)

/-- A start in which every call succeeds: both forks return 0, `open` returns the
descriptor 3, `socket` the descriptor 4. -/
def boot : List Sys :=
  [{ ret := 0 }, { ret := 4242 }, { ret := 0 }, { ret := 3 }, { ret := 4096 },
   { ret := 8192 }, { ret := 4 }, { ret := 0 }, { ret := 0 }]

/-- The start followed by a client accepted on the descriptor 7. -/
def connected : List Sys := boot ++ [{ ret := 7 }]

/-- A chunk of five bytes: `quit` and a NUL byte. -/
def quit_nul : Sys := { ret := 5, data := str "quit" ++ [0] }

/-- A chunk of five bytes with a NUL byte in the middle. -/
def ab_nul_cd : Sys := { ret := 5, data := str "ab" ++ [0] ++ str "cd" }

/-- The chunk `hello` and a newline. -/
def hello : Sys := { ret := 6, data := str "hello\n" }

/-- The result of a `read` that stores the chunk `data`. -/
def chunk_result (data : List Byte) : Sys := { ret := (data.length : Int), data := data }

/-- The result of a zero-length `read`: the client has disconnected. -/
def eof_result : Sys := { ret := 0 }

/-- The result of an `accept` that returns the descriptor `fd`. -/
def accept_result (fd : Int) : Sys := { ret := fd }

/-- The chunk is the quit command for the program: the C string left in the buffer is
`quit`. -/
def quit_chunk (data : List Byte) : Prop := cstr (strip_newline data) = str "quit"

instance (data : List Byte) : Decidable (quit_chunk data) := by
  unfold quit_chunk; infer_instance

/-- A chunk of 1 to 1023 bytes that is not the quit command. -/
def plain_chunk (data : List Byte) : Prop :=
  1 ≤ data.length ∧ data.length ≤ 1023 ∧ ¬ quit_chunk data

/-- A client session that ends with a disconnect: the descriptor `accept` returned and
the chunks read before the zero-length read. -/
structure Session where
  client_fd : Int
  chunks : List (List Byte)

/-- The session is accepted and none of its chunks is the quit command. -/
def Session.plain (x : Session) : Prop :=
  x.client_fd ≠ -1 ∧ ∀ d ∈ x.chunks, plain_chunk d

/-- The results of the calls of one session that ends with a disconnect. -/
def Session.script (x : Session) : List Sys :=
  accept_result x.client_fd :: (x.chunks.map chunk_result ++ [eof_result])

/-- The results of the calls of a sequence of sessions. -/
def sessions_script : List Session → List Sys
  | [] => []
  | x :: xs => x.script ++ sessions_script xs

/-- The state after the chunks of a session. -/
def after_chunks (client_fd : Int) : List (List Byte) → State → State
  | [], s => s
  | d :: ds, s => after_chunks client_fd ds (after_chunk client_fd d s)

/-- The state after a session that ended with a disconnect. -/
def after_session (x : Session) (s : State) : State :=
  (((after_chunks x.client_fd x.chunks (s.emit (.sys .accept))).emit
    (.sys (.read x.client_fd))).emit (.log_info (str "Client disconnected"))).emit
    (.close x.client_fd)

/-- The state after a sequence of sessions that ended with a disconnect. -/
def after_sessions : List Session → State → State
  | [], s => s
  | x :: xs, s => after_sessions xs (after_session x s)

instance (data : List Byte) : Decidable (plain_chunk data) := by
  unfold plain_chunk; infer_instance

instance (x : Session) : Decidable x.plain := by
  unfold Session.plain; infer_instance

/-- The result of a call that fails with "Cannot allocate memory". -/
def enomem : Sys := { ret := -1, err := str "Cannot allocate memory" }

/-- The quit command as a chunk, without regard to NUL bytes: the chunk is `quit`, or
`quit` and one newline. -/
def quit_command (data : List Byte) : Prop := strip_newline data = str "quit"

instance (data : List Byte) : Decidable (quit_command data) := by
  unfold quit_command; infer_instance

/-- A chunk of nine bytes: `quit`, a NUL byte, `junk`. -/
def quit_nul_junk : List Byte := str "quit" ++ [0] ++ str "junk"

/-- The state of `main` at line 177, before the call of `cleanup`, in the run in which
the start succeeds, a client is accepted on the descriptor 7 and sends `quit` and a
newline. -/
def at_cleanup : State :=
  (after_chunk 7 (str "quit\n") (main 4242 (State.init none) connected)).emit (.close 7)

/-! ## Facts about C strings -/

theorem cstr_append_nul (a rest : List Byte) : cstr (a ++ 0 :: rest) = cstr a := by
  induction a with
  | nil => simp [cstr]
  | cons x xs ih => by_cases hx : x = 0 <;> simp [cstr, hx, ih]

theorem cstr_append_replicate (a : List Byte) (n : Nat) (h : 1 ≤ n) :
    cstr (a ++ List.replicate n 0) = cstr a := by
  obtain ⟨m, rfl⟩ : ∃ m, n = m + 1 := ⟨n - 1, by omega⟩
  rw [List.replicate_succ, cstr_append_nul]

theorem byte_cast_ne_zero (x : Byte) (hx : x ≠ 0) : (x.val : Int) ≠ 0 := by
  intro h; apply hx; apply Fin.ext; simpa using h

theorem strcmp_eq_zero_iff (a b : List Byte) : strcmp a b = 0 ↔ cstr a = cstr b := by
  induction a generalizing b with
  | nil =>
    cases b with
    | nil => simp [strcmp, cstr]
    | cons y ys =>
      by_cases hy : y = 0
      · simp [strcmp, cstr, hy]
      · simp [strcmp, cstr, hy, byte_cast_ne_zero y hy]
  | cons x xs ih =>
    cases b with
    | nil =>
      by_cases hx : x = 0
      · simp [strcmp, cstr, hx]
      · simp [strcmp, cstr, hx, byte_cast_ne_zero x hx]
    | cons y ys =>
      by_cases hxy : x = y
      · subst hxy
        by_cases hx : x = 0
        · simp [strcmp, cstr, hx]
        · simp [strcmp, cstr, hx, ih ys]
      · have hne : (x.val : Int) - (y.val : Int) ≠ 0 := by
          intro h; apply hxy; apply Fin.ext; omega
        have hyx : ¬ y = x := fun h => hxy h.symm
        by_cases hx : x = 0 <;> by_cases hy : y = 0 <;>
          simp_all [strcmp, cstr]

theorem cstr_quit : cstr (str "quit") = str "quit" := by decide

theorem strcmp_quit_iff (a : List Byte) : strcmp a (str "quit") = 0 ↔ cstr a = str "quit" := by
  rw [strcmp_eq_zero_iff, cstr_quit]

/-! ## The buffer after one chunk -/

theorem store_bytes (data : List Byte) (h : data.length ≤ 1023) :
    (Buf.zeroed.store data).bytes = data ++ List.replicate (1024 - data.length) 0 := by
  show data.take (1024 - 1) ++ (List.replicate 1024 (0 : Byte)).drop (data.take (1024 - 1)).length
    = data ++ List.replicate (1024 - data.length) 0
  rw [List.take_of_length_le (by omega), List.drop_replicate]

theorem store_length (data : List Byte) : (Buf.zeroed.store data).bytes.length = 1024 := by
  show (data.take (1024 - 1) ++
    (List.replicate 1024 (0 : Byte)).drop (data.take (1024 - 1)).length).length = 1024
  rw [List.drop_replicate, List.length_append, List.length_replicate, List.length_take]
  omega

theorem store_accesses (data : List Byte) : (Buf.zeroed.store data).accesses = [] := rfl

theorem store_fault (data : List Byte) : (Buf.zeroed.store data).fault = false := rfl

/-- The buffer after lines 153-166 on a chunk: the chunk without one trailing newline,
then NUL bytes; both indices were inside the array. -/
theorem terminate_and_strip_chunk (data : List Byte) (h1 : 1 ≤ data.length)
    (h2 : data.length ≤ 1023) :
    terminate_and_strip (data.length : Int) (Buf.zeroed.store data) =
      { bytes := strip_newline data ++
          List.replicate (1024 - (strip_newline data).length) 0
        accesses := chunk_accesses data
        fault := false } := by
  rcases List.eq_nil_or_concat data with hnil | ⟨init, last, hd⟩
  · subst hnil; simp at h1
  · rw [List.concat_eq_append] at hd
    subst hd
    have hlen : (init ++ [last]).length = init.length + 1 := by simp
    rw [hlen] at h1 h2 ⊢
    have hk : 1024 - (init.length + 1) = (1023 - init.length - 1) + 1 := by omega
    have hb : (Buf.zeroed.store (init ++ [last])).bytes =
        init ++ last :: 0 :: List.replicate (1023 - init.length - 1) 0 := by
      rw [store_bytes _ (by rw [hlen]; exact h2), hlen, hk, List.replicate_succ]
      simp
    have hL : (Buf.zeroed.store (init ++ [last])).bytes.length = 1024 := store_length _
    have ht1 : (((init.length + 1 : Nat) : Int)).toNat = init.length + 1 := by simp
    have ht2 : (((init.length + 1 : Nat) : Int) - 1).toNat = init.length := by omega
    have hin1 : (Buf.zeroed.store (init ++ [last])).inBounds ((init.length + 1 : Nat) : Int)
        = true := by
      simp only [Buf.inBounds, hL, Bool.and_eq_true, decide_eq_true_eq]; omega
    have hset1 : (init ++ last :: 0 :: List.replicate (1023 - init.length - 1) 0).set
        (init.length + 1) 0 = init ++ last :: 0 :: List.replicate (1023 - init.length - 1) 0 := by
      rw [List.set_append_right _ _ (by omega)]
      simp
    have hget : (init ++ last :: 0 :: List.replicate (1023 - init.length - 1) 0).getD
        init.length 0 = last := by
      rw [List.getD_append_right _ _ _ _ (le_refl _)]
      simp
    have hset2 : (init ++ last :: 0 :: List.replicate (1023 - init.length - 1) 0).set
        init.length 0 = init ++ 0 :: 0 :: List.replicate (1023 - init.length - 1) 0 := by
      rw [List.set_append_right _ _ (le_refl _)]
      simp
    have hlen2 : (init ++ last :: 0 :: List.replicate (1023 - init.length - 1) 0).length
        = 1024 := by
      simp only [List.length_append, List.length_cons, List.length_replicate]; omega
    by_cases hnl : last = 10
    · subst hnl
      have hs : strip_newline (init ++ [(10 : Byte)]) = init := by
        simp [strip_newline]
      have hin2 : ∀ acc f, Buf.inBounds
          { bytes := init ++ (10 : Byte) :: 0 :: List.replicate (1023 - init.length - 1) 0,
            accesses := acc, fault := f } (((init.length + 1 : Nat) : Int) - 1) = true := by
        intro acc f
        simp only [Buf.inBounds, hlen2, Bool.and_eq_true, decide_eq_true_eq]; omega
      have hrep : (1024 - init.length) = (1023 - init.length - 1) + 1 + 1 := by omega
      simp only [terminate_and_strip, Buf.write, Buf.read, hin1, hb, ht1, ht2, hset1, hget,
        store_accesses, store_fault, hin2, hset2, hs, chunk_accesses, hrep,
        List.replicate_succ, if_true]
      simp
    · have hs : strip_newline (init ++ [last]) = init ++ [last] := by
        simp [strip_newline, hnl]
      have hin2 : ∀ acc f, Buf.inBounds
          { bytes := init ++ last :: 0 :: List.replicate (1023 - init.length - 1) 0,
            accesses := acc, fault := f } (((init.length + 1 : Nat) : Int) - 1) = true := by
        intro acc f
        simp only [Buf.inBounds, hlen2, Bool.and_eq_true, decide_eq_true_eq]; omega
      simp only [terminate_and_strip, Buf.write, Buf.read, hin1, hb, ht1, ht2, hset1, hget,
        store_accesses, store_fault, hin2, hs, chunk_accesses, hlen, hk,
        List.replicate_succ, if_true, hnl, if_false]
      simp [hnl]

theorem strip_newline_length_le (data : List Byte) :
    (strip_newline data).length ≤ data.length := by
  unfold strip_newline; split <;> simp

/-- The C string in the buffer after a chunk. -/
theorem cstr_chunk (data : List Byte) (h1 : 1 ≤ data.length) (h2 : data.length ≤ 1023) :
    cstr (terminate_and_strip (data.length : Int) (Buf.zeroed.store data)).bytes
      = cstr (strip_newline data) := by
  rw [terminate_and_strip_chunk data h1 h2]
  have := strip_newline_length_le data
  exact cstr_append_replicate _ _ (by omega)

/-! ## One step of the Connected state -/

/-- The loop body on a chunk: the line is logged, then the loop ends exactly when the C
string in the buffer is `quit`. -/
theorem serve_chunk (client_fd : Int) (s : State) (r : Sys) (script : List Sys)
    (h : r.isChunk) :
    serve (some client_fd) s (r :: script) =
      if cstr (strip_newline r.data) = str "quit" then
        epilogue ((after_chunk client_fd r.data s).emit (.close client_fd))
      else serve (some client_fd) (after_chunk client_fd r.data s) script := by
  obtain ⟨hret, h1, h2⟩ := h
  have hne1 : ¬ ((r.data.length : Int) = -1) := by omega
  have hne0 : ¬ ((r.data.length : Int) = 0) := by omega
  rw [serve]
  simp only [hret, hne1, hne0, if_false, terminate_and_strip_chunk r.data h1 h2,
    strcmp_quit_iff]
  have hc : cstr (strip_newline r.data ++
      List.replicate (1024 - (strip_newline r.data).length) 0) = cstr (strip_newline r.data) := by
    have := strip_newline_length_le r.data
    exact cstr_append_replicate _ _ (by omega)
  simp only [hc, Bool.false_eq_true, if_false]
  have hs : State.emit { s.emit (.sys (.read client_fd)) with
        indexed := (s.emit (.sys (.read client_fd))).indexed ++ chunk_accesses r.data }
      (.log_info (str "Read " ++ cstr (strip_newline r.data)))
      = after_chunk client_fd r.data s := by
    simp [after_chunk, State.emit]
  rw [hs]

theorem serve_nil_read (client_fd : Int) (s : State) :
    serve (some client_fd) s [] = { s with status := .waiting (.read client_fd) } := by
  rw [serve]

theorem serve_nil_accept (s : State) :
    serve none s [] = { s with status := .waiting .accept } := by
  rw [serve]

theorem epilogue_status (s : State) : (epilogue s).status = .exited 0 := rfl

/-! ## What `cleanup`, `die`, the epilogue and the handler do -/

theorem cleanup_eq (s : State) :
    cleanup s = { s with
      pid_file := none, trace := s.trace ++ cleanup_effects s.sock_fd s.log_file } := by
  unfold cleanup cleanup_effects State.emit
  by_cases h1 : s.sock_fd = -1 <;> by_cases h2 : s.log_file = NULL <;> simp [h1, h2]

theorem die_eq (m : String) (e : List Byte) (s : State) :
    die m e s = { s with
      pid_file := none
      trace := s.trace ++ [.log_info (str "Error: " ++ str m ++ str ": " ++ cstr e)] ++
        cleanup_effects s.sock_fd s.log_file ++ [.exit EXIT_FAILURE]
      status := .exited EXIT_FAILURE } := by
  simp [die, cleanup_eq, exit, State.emit]

theorem epilogue_eq (s : State) :
    epilogue s = { s with
      pid_file := none
      trace := s.trace ++ cleanup_effects s.sock_fd s.log_file ++
        [.log_info (str "Quitting after 'quit' command"), .exit 0]
      status := .exited 0 } := by
  simp [epilogue, cleanup_eq, exit, State.emit]

theorem signal_handler_eq (signum : Int) (s : State) :
    signal_handler signum s = { s with
      pid_file := none
      trace := s.trace ++ [.log_info (str "Received signal: " ++ fmt_d signum)] ++
        cleanup_effects s.sock_fd s.log_file ++
        [.log_info (str "Quitting after signal"), .exit EXIT_SUCCESS]
      status := .exited EXIT_SUCCESS } := by
  simp [signal_handler, cleanup_eq, exit, State.emit]

theorem die_status (m : String) (e : List Byte) (s : State) :
    (die m e s).status = .exited EXIT_FAILURE := rfl

theorem die_log_file (m : String) (e : List Byte) (s : State) :
    (die m e s).log_file = s.log_file := by
  rw [die_eq]

theorem die_set_status (m : String) (e : List Byte) (s : State) (x : Status) :
    die m e { s with status := x } = die m e s := by
  simp only [die_eq]

theorem epilogue_set_status (s : State) (x : Status) :
    epilogue { s with status := x } = epilogue s := by
  simp only [epilogue_eq]

/-! ## Resuming the loop -/

/-- The loop does not look at the status it starts from. -/
theorem serve_set_status (c : Option Int) (s : State) (x : Status) (script : List Sys) :
    serve c { s with status := x } script = serve c s script := by
  induction script generalizing c s with
  | nil => cases c <;> simp [serve]
  | cons r script ih =>
    cases c with
    | none =>
      rw [serve, serve]
      have h := die_set_status "Failed to accept new client" r.err
        (s.emit (.sys .accept)) x
      have h2 := ih (some r.ret) (s.emit (.sys .accept))
      simp only [State.emit] at h h2 ⊢
      rw [h, h2]
    | some fd =>
      rw [serve, serve]
      have h := die_set_status "Couldn't read from socket" r.err
        (s.emit (.sys (.read fd))) x
      have h2 := ih none (((s.emit (.sys (.read fd))).emit
        (.log_info (str "Client disconnected"))).emit (.close fd))
      have h3 := ih (some fd) (State.emit { s.emit (.sys (.read fd)) with
        indexed := (s.emit (.sys (.read fd))).indexed ++
          (terminate_and_strip r.ret (Buf.zeroed.store r.data)).accesses }
        (.log_info (str "Read " ++
          cstr (terminate_and_strip r.ret (Buf.zeroed.store r.data)).bytes)))
      have h4 := epilogue_set_status ((State.emit { s.emit (.sys (.read fd)) with
        indexed := (s.emit (.sys (.read fd))).indexed ++
          (terminate_and_strip r.ret (Buf.zeroed.store r.data)).accesses }
        (.log_info (str "Read " ++
          cstr (terminate_and_strip r.ret (Buf.zeroed.store r.data)).bytes))).emit
            (.close fd)) x
      simp only [State.emit] at h h2 h3 h4 ⊢
      rw [h, h2, h3, h4]

theorem serve_log_file (c : Option Int) (s : State) (script : List Sys) :
    (serve c s script).log_file = s.log_file := by
  induction script generalizing c s with
  | nil => cases c <;> simp [serve]
  | cons r script ih =>
    cases c with
    | none =>
      rw [serve]
      split
      · rw [die_log_file]; rfl
      · rw [ih]; rfl
    | some fd =>
      rw [serve]
      dsimp only
      split
      · rw [die_log_file]; rfl
      · split
        · rw [ih]; rfl
        · split
          · rfl
          · split
            · rw [epilogue_eq]; rfl
            · rw [ih]; rfl

/-- A script that leaves the loop waiting can be continued: the rest of the script is
consumed from the call the loop waits in. -/
theorem serve_append (c : Option Int) (s : State) (st rest : List Sys) :
    ((serve c s st).status = .waiting .accept →
      serve c s (st ++ rest) = serve none (serve c s st) rest) ∧
    (∀ fd, (serve c s st).status = .waiting (.read fd) →
      serve c s (st ++ rest) = serve (some fd) (serve c s st) rest) := by
  induction st generalizing c s with
  | nil =>
    cases c with
    | none =>
      rw [serve_nil_accept]
      refine ⟨fun _ => ?_, fun fd h => by simp at h⟩
      rw [List.nil_append]
      exact (serve_set_status none s _ rest).symm
    | some cfd =>
      rw [serve_nil_read]
      refine ⟨fun h => by simp at h, fun fd h => ?_⟩
      simp only [Status.waiting.injEq, Call.read.injEq] at h
      rw [List.nil_append, h]
      exact (serve_set_status (some fd) s _ rest).symm
  | cons r st ih =>
    cases c with
    | none =>
      rw [List.cons_append, serve, serve]
      split
      · exact ⟨fun h => by simp [die_status] at h, fun fd h => by simp [die_status] at h⟩
      · exact ih _ _
    | some cfd =>
      rw [List.cons_append, serve, serve]
      dsimp only
      split
      · exact ⟨fun h => by simp [die_status] at h, fun fd h => by simp [die_status] at h⟩
      · split
        · exact ih _ _
        · split
          · exact ⟨fun h => by simp at h, fun fd h => by simp at h⟩
          · split
            · exact ⟨fun h => by simp [epilogue_status] at h,
                fun fd h => by simp [epilogue_status] at h⟩
            · exact ih _ _

/-! ## Properties of `main` over every script -/

theorem sound_const (x : State) (hw : ∀ c, x.status ≠ .waiting c)
    (hh : ∀ signum, handler_installed signum x = true → x.log_file ≠ NULL)
    (hx : ∀ code, Effect.exit code ∈ x.trace → x.status = .exited code) :
    Sound (fun _ => x) :=
  { accept := fun _ _ h => absurd h (hw _)
    read := fun _ _ _ h => absurd h (hw _)
    fail := fun _ _ _ _ h => absurd h (hw _)
    handlers := fun _ => hh
    exits := fun _ => hx }

theorem sound_ite (p : Prop) [Decidable p] (a b : List Sys → State)
    (ha : p → Sound a) (hb : ¬ p → Sound b) :
    Sound (fun script => if p then a script else b script) := by
  by_cases hp : p
  · simp only [hp, if_true]; exact ha hp
  · simp only [hp, if_false]; exact hb hp

theorem sound_sys (c : Call) (s : State) (k : Sys → State → List Sys → State)
    (hc1 : c ≠ .accept) (hc2 : ∀ fd, c ≠ .read fd)
    (h0 : ∀ r rest, Failed c r { s with status := .waiting c } →
      k r (s.emit (.sys c)) rest = fail_at c r { s with status := .waiting c })
    (hh : ∀ signum, handler_installed signum s = true → s.log_file ≠ NULL)
    (hne : ∀ code, Effect.exit code ∉ s.trace)
    (hk : ∀ r, Sound (fun script => k r (s.emit (.sys c)) script)) :
    Sound (fun script => sys c s script k) := by
  constructor
  · intro st rest h
    cases st with
    | nil => simp only [sys, Status.waiting.injEq] at h; exact absurd h hc1
    | cons r st => exact (hk r).accept st rest h
  · intro st fd rest h
    cases st with
    | nil => simp only [sys, Status.waiting.injEq] at h; exact absurd h (hc2 fd)
    | cons r st => exact (hk r).read st fd rest h
  · intro st c' r rest h hf
    cases st with
    | nil =>
      simp only [sys, Status.waiting.injEq] at h
      subst h
      exact h0 r rest hf
    | cons r' st => exact (hk r').fail st c' r rest h hf
  · intro st signum h
    cases st with
    | nil => exact hh signum h
    | cons r st => exact (hk r).handlers st signum h
  · intro st code h
    cases st with
    | nil => exact absurd h (hne code)
    | cons r st => exact (hk r).exits st code h

theorem serve_waiting (c : Option Int) (s : State) (st : List Sys) (c' : Call)
    (h : (serve c s st).status = .waiting c') : c' = .accept ∨ ∃ fd, c' = .read fd := by
  induction st generalizing c s with
  | nil =>
    cases c with
    | none => rw [serve_nil_accept] at h; simp at h; exact Or.inl h.symm
    | some fd => rw [serve_nil_read] at h; simp at h; exact Or.inr ⟨fd, h.symm⟩
  | cons r st ih =>
    cases c with
    | none =>
      rw [serve] at h
      split at h
      · simp [die_status] at h
      · exact ih _ _ h
    | some fd =>
      rw [serve] at h
      dsimp only at h
      split at h
      · simp [die_status] at h
      · split at h
        · exact ih _ _ h
        · split at h
          · simp at h
          · split at h
            · simp [epilogue_status] at h
            · exact ih _ _ h

theorem serve_fail (c : Option Int) (s : State) (st : List Sys) (c' : Call) (r : Sys)
    (rest : List Sys) (h : (serve c s st).status = .waiting c')
    (hf : Failed c' r (serve c s st)) :
    serve c s (st ++ r :: rest) = fail_at c' r (serve c s st) := by
  rcases serve_waiting c s st c' h with rfl | ⟨fd, rfl⟩
  · rw [(serve_append c s st (r :: rest)).1 h, serve]
    have hr : r.ret = -1 := hf
    simp [hr, die_eq, fail_at, State.emit, runs_cleanup, error_text]
  · rw [(serve_append c s st (r :: rest)).2 fd h, serve]
    have hr : r.ret = -1 := hf
    simp [hr, die_eq, fail_at, State.emit, runs_cleanup, error_text]

theorem exit_exits (c : Int) (s : State) (hne : ∀ code, Effect.exit code ∉ s.trace)
    (code : Int) (h : Effect.exit code ∈ (exit c s).trace) :
    (exit c s).status = .exited code := by
  simp only [exit, List.mem_append, List.mem_singleton, Effect.exit.injEq] at h ⊢
  rcases h with h | h
  · exact absurd h (hne code)
  · rw [h]

theorem cleanup_effects_no_exit (a b code : Int) :
    Effect.exit code ∉ cleanup_effects a b := by
  unfold cleanup_effects
  by_cases h1 : a = -1 <;> by_cases h2 : b = NULL <;> simp [h1, h2]

theorem die_exits (m : String) (e : List Byte) (s : State)
    (hne : ∀ code, Effect.exit code ∉ s.trace)
    (code : Int) (h : Effect.exit code ∈ (die m e s).trace) :
    (die m e s).status = .exited code := by
  rw [die_eq] at h ⊢
  simp only [List.mem_append, List.mem_singleton, Effect.exit.injEq, reduceCtorEq,
    or_false] at h
  rcases h with (h | h) | h
  · exact absurd h (hne code)
  · exact absurd h (cleanup_effects_no_exit _ _ _)
  · rw [h]

theorem epilogue_exits (s : State) (hne : ∀ code, Effect.exit code ∉ s.trace)
    (code : Int) (h : Effect.exit code ∈ (epilogue s).trace) :
    (epilogue s).status = .exited code := by
  rw [epilogue_eq] at h ⊢
  simp only [List.mem_append, List.mem_cons, List.mem_singleton, Effect.exit.injEq,
    reduceCtorEq, false_or, List.not_mem_nil, or_false] at h
  rcases h with (h | h) | h
  · exact absurd h (hne code)
  · exact absurd h (cleanup_effects_no_exit _ _ _)
  · rw [h]

theorem emit_no_exit (s : State) (e : Effect) (he : ∀ code, e ≠ .exit code)
    (hne : ∀ code, Effect.exit code ∉ s.trace) :
    ∀ code, Effect.exit code ∉ (s.emit e).trace := by
  intro code h
  simp only [State.emit, List.mem_append, List.mem_singleton] at h
  rcases h with h | h
  · exact hne code h
  · exact he code h.symm

theorem serve_exits (c : Option Int) (s : State) (st : List Sys)
    (hne : ∀ code, Effect.exit code ∉ s.trace) (code : Int)
    (h : Effect.exit code ∈ (serve c s st).trace) :
    (serve c s st).status = .exited code := by
  induction st generalizing c s with
  | nil =>
    cases c with
    | none => rw [serve_nil_accept] at h; exact absurd h (hne code)
    | some fd => rw [serve_nil_read] at h; exact absurd h (hne code)
  | cons r st ih =>
    cases c with
    | none =>
      rw [serve] at h ⊢
      have h1 := emit_no_exit s (.sys .accept) (by simp) hne
      split at h
      · rename_i hc; simp only [hc, if_true]; exact die_exits _ _ _ h1 code h
      · rename_i hc; simp only [hc, if_false]; exact ih _ _ h1 h
    | some fd =>
      rw [serve] at h ⊢
      have h1 := emit_no_exit s (.sys (.read fd)) (by simp) hne
      dsimp only at h ⊢
      split at h
      · rename_i hc; simp only [hc, if_true]; exact die_exits _ _ _ h1 code h
      · rename_i hc
        simp only [hc, if_false]
        split at h
        · rename_i hc0
          simp only [hc0, if_true]
          refine ih _ _ ?_ h
          exact emit_no_exit _ _ (by simp) (emit_no_exit _ _ (by simp) h1)
        · rename_i hc0
          simp only [hc0, if_false]
          have h2 : ∀ code, Effect.exit code ∉ (State.emit { s.emit (.sys (.read fd)) with
              indexed := (s.emit (.sys (.read fd))).indexed ++
                (terminate_and_strip r.ret (Buf.zeroed.store r.data)).accesses }
              (.log_info (str "Read " ++
                cstr (terminate_and_strip r.ret (Buf.zeroed.store r.data)).bytes))).trace :=
            emit_no_exit _ _ (by simp) h1
          split at h
          · rename_i hf; simp only [hf, if_true]; exact absurd h (h1 code)
          · rename_i hf
            simp only [hf]
            split at h
            · rename_i hq
              simp only [hq, if_true]
              exact epilogue_exits _ (emit_no_exit _ _ (by simp) h2) code h
            · rename_i hq
              simp only [hq, if_false]
              exact ih _ _ h2 h

theorem sound_serve (c : Option Int) (s : State) (hlog : s.log_file ≠ NULL)
    (hne : ∀ code, Effect.exit code ∉ s.trace) :
    Sound (fun script => serve c s script) :=
  { accept := fun st rest h => (serve_append c s st rest).1 h
    read := fun st fd rest h => (serve_append c s st rest).2 fd h
    fail := fun st c' r rest h hf => serve_fail c s st c' r rest h hf
    handlers := fun st _ _ => by rw [serve_log_file]; exact hlog
    exits := fun st code h => serve_exits c s st hne code h }

theorem str_err_fork : str "Error: Cannot fork: " =
    str "Error: " ++ (str "Cannot fork" ++ str ": ") := by decide

theorem str_err_setsid : str "Error: setsid failed: " =
    str "Error: " ++ (str "setsid failed" ++ str ": ") := by decide

theorem str_err_open : str "Error: Failed to open pid file: " =
    str "Error: " ++ (str "Failed to open pid file" ++ str ": ") := by decide

theorem exit_status_ne_waiting (code : Int) (s : State) (c : Call) :
    (exit code s).status ≠ .waiting c := by
  simp [exit]

theorem die_status_ne_waiting (m : String) (e : List Byte) (s : State) (c : Call) :
    (die m e s).status ≠ .waiting c := by
  simp [die_status]

theorem early_emit (s : State) (e : Effect) (h : Early s) (he1 : ∀ n, e ≠ .signal n)
    (he2 : ∀ c, e ≠ .exit c) : Early (s.emit e) := by
  refine ⟨h.1, h.2.1, ?_, emit_no_exit s e he2 h.2.2.2⟩
  intro signum hm
  simp only [State.emit, List.mem_append, List.mem_singleton] at hm
  rcases hm with hm | hm
  · exact h.2.2.1 signum hm
  · exact he1 signum hm.symm

theorem late_emit (s : State) (e : Effect) (h : Late s) (he2 : ∀ c, e ≠ .exit c) :
    Late (s.emit e) :=
  ⟨h.1, emit_no_exit s e he2 h.2⟩

theorem handlers_of_early (s : State) (h : Early s) (signum : Int)
    (hi : handler_installed signum s = true) : s.log_file ≠ NULL := by
  simp only [handler_installed, decide_eq_true_eq] at hi
  exact absurd hi (h.2.2.1 signum)

theorem sound_exit (c : Int) (s : State) (h : Early s) : Sound (fun _ => exit c s) := by
  refine sound_const _ (exit_status_ne_waiting _ _) ?_ (exit_exits _ _ h.2.2.2)
  intro signum hi
  simp only [handler_installed, decide_eq_true_eq, exit, List.mem_append,
    List.mem_singleton, reduceCtorEq, or_false] at hi
  exact absurd hi (h.2.2.1 signum)

theorem sound_die_early (m : String) (e : List Byte) (s : State)
    (hs : ∀ signum, Effect.signal signum ∉ s.trace)
    (hx : ∀ code, Effect.exit code ∉ s.trace) : Sound (fun _ => die m e s) := by
  refine sound_const _ (die_status_ne_waiting _ _ _) ?_ (die_exits _ _ _ hx)
  intro signum hi
  rw [die_eq] at hi
  simp only [handler_installed, decide_eq_true_eq, List.mem_append,
    List.mem_singleton, reduceCtorEq, or_false] at hi
  rcases hi with hi | hi
  · exact absurd hi (hs signum)
  · exfalso
    revert hi
    unfold cleanup_effects
    by_cases h1 : s.sock_fd = -1 <;> by_cases h2 : s.log_file = NULL <;> simp [h1, h2]

theorem sound_die_late (m : String) (e : List Byte) (s : State) (h : Late s) :
    Sound (fun _ => die m e s) := by
  refine sound_const _ (die_status_ne_waiting _ _ _) ?_ (die_exits _ _ _ h.2)
  intro _ _
  rw [die_log_file]
  exact h.1

theorem handlers_of_late (s : State) (h : Late s) (signum : Int)
    (_hi : handler_installed signum s = true) : s.log_file ≠ NULL := h.1

theorem main_sound (pid : Int) (pf : Option (List Byte)) :
    Sound (fun script => main pid (State.init pf) script) := by
  unfold main
  have h0 : Early (State.init pf) := by simp [Early, State.init]
  generalize State.init pf = s0 at h0 ⊢
  -- first fork
  refine sound_sys _ _ _ (by decide) (by intro fd; simp) ?_ (handlers_of_early _ h0)
    h0.2.2.2 ?_
  · intro r rest hf
    have hr : r.ret = -1 := hf
    simp [hr, fail_at, exit, State.emit, runs_cleanup, error_text, str_err_fork]
  intro r
  have h1 := early_emit s0 (.sys .fork) h0 (by simp) (by simp)
  generalize s0.emit (.sys .fork) = s1 at h1 ⊢
  try dsimp only
  refine sound_ite _ _ _
    (fun _ => sound_exit _ _ (early_emit _ _ h1 (by simp) (by simp))) (fun _ => ?_)
  refine sound_ite _ _ _ (fun _ => sound_exit _ _ h1) (fun _ => ?_)
  -- setsid
  refine sound_sys _ _ _ (by decide) (by intro fd; simp) ?_ (handlers_of_early _ h1)
    h1.2.2.2 ?_
  · intro r rest hf
    have hr : r.ret = -1 := hf
    simp [hr, fail_at, exit, State.emit, runs_cleanup, error_text, str_err_setsid]
  intro r
  have h2 := early_emit s1 (.sys .setsid) h1 (by simp) (by simp)
  generalize s1.emit (.sys .setsid) = s2 at h2 ⊢
  try dsimp only
  refine sound_ite _ _ _
    (fun _ => sound_exit _ _ (early_emit _ _ h2 (by simp) (by simp))) (fun _ => ?_)
  -- second fork
  refine sound_sys _ _ _ (by decide) (by intro fd; simp) ?_ (handlers_of_early _ h2)
    h2.2.2.2 ?_
  · intro r rest hf
    have hr : r.ret = -1 := hf
    simp [hr, fail_at, exit, State.emit, runs_cleanup, error_text, str_err_fork]
  intro r
  have h3 := early_emit s2 (.sys .fork) h2 (by simp) (by simp)
  generalize s2.emit (.sys .fork) = s3 at h3 ⊢
  try dsimp only
  refine sound_ite _ _ _
    (fun _ => sound_exit _ _ (early_emit _ _ h3 (by simp) (by simp))) (fun _ => ?_)
  refine sound_ite _ _ _ (fun _ => sound_exit _ _ h3) (fun _ => ?_)
  -- open
  refine sound_sys _ _ _ (by decide) (by intro fd; simp) ?_ (handlers_of_early _ h3)
    h3.2.2.2 ?_
  · intro r rest hf
    have hr : s3.pid_file.isSome = true ∨ r.ret = -1 := hf
    have hc : (if s3.pid_file.isSome = true then (-1 : Int) else r.ret) = -1 := by
      rcases hr with h | h
      · simp [h]
      · simp [h]
    simp [hc, fail_at, exit, State.emit, runs_cleanup, error_text, str_err_open]
  intro r
  have h4 := early_emit s3 (.sys .open) h3 (by simp) (by simp)
  generalize s3.emit (.sys .open) = s4 at h4 ⊢
  try dsimp only
  refine sound_ite _ _ _
    (fun _ => sound_exit _ _ (early_emit _ _ h4 (by simp) (by simp))) (fun _ => ?_)
  -- fdopen
  have h4' : Early { s4 with pid_file := some [] } := h4
  generalize ({ s4 with pid_file := some [] } : State) = s4' at h4' ⊢
  refine sound_sys _ _ _ (by decide) (by intro fd; simp) ?_ (handlers_of_early _ h4')
    h4'.2.2.2 ?_
  · intro r rest hf
    exact absurd hf (by simp [Failed])
  intro r
  have h5 := early_emit s4' (.sys .fdopen) h4' (by simp) (by simp)
  generalize s4'.emit (.sys .fdopen) = s5 at h5 ⊢
  try dsimp only
  refine sound_ite _ _ _ (fun _ => sound_const _ (by simp) ?_ ?_) (fun _ => ?_)
  · exact handlers_of_early _ h5
  · intro code h; exact absurd h (h5.2.2.2 code)
  -- fopen
  have h5' : Early ((State.emit { s5 with pid_file := some (fmt_d pid) }
      (.fprintf_pid (fmt_d pid))).emit (.fclose r.ret)) :=
    early_emit _ _ (early_emit _ _ h5 (by simp) (by simp)) (by simp) (by simp)
  generalize ((State.emit { s5 with pid_file := some (fmt_d pid) }
      (.fprintf_pid (fmt_d pid))).emit (.fclose r.ret)) = s5' at h5' ⊢
  refine sound_sys _ _ _ (by decide) (by intro fd; simp) ?_ (handlers_of_early _ h5')
    h5'.2.2.2 ?_
  · intro r rest hf
    have hr : r.ret = NULL := hf
    simp [hr, fail_at, die_eq, State.emit, runs_cleanup, error_text, h5'.1]
  intro r
  have h6 := early_emit s5' (.sys .fopen) h5' (by simp) (by simp)
  generalize s5'.emit (.sys .fopen) = s6 at h6 ⊢
  try dsimp only
  refine sound_ite _ _ _ (fun _ => sound_die_early _ _ _ h6.2.2.1 h6.2.2.2) (fun hlog => ?_)
  -- socket
  have h6' : Late ((((((((((State.emit { s6 with log_file := r.ret } (.setlinebuf 0)).emit
      (.setlinebuf 1)).emit (.setlinebuf 2)).emit (.dup2_log STDOUT_FILENO)).emit
      (.dup2_log STDERR_FILENO)).emit (.signal SIGHUP)).emit (.signal SIGINT)).emit
      (.signal SIGTERM)).emit (.log_info (str "Started")))) := by
    have hb : Late { s6 with log_file := r.ret } := ⟨hlog, h6.2.2.2⟩
    exact late_emit _ _ (late_emit _ _ (late_emit _ _ (late_emit _ _ (late_emit _ _
      (late_emit _ _ (late_emit _ _ (late_emit _ _ (late_emit _ _ hb (by simp))
      (by simp)) (by simp)) (by simp)) (by simp)) (by simp)) (by simp)) (by simp)) (by simp)
  have hsock : ((((((((((State.emit { s6 with log_file := r.ret } (.setlinebuf 0)).emit
      (.setlinebuf 1)).emit (.setlinebuf 2)).emit (.dup2_log STDOUT_FILENO)).emit
      (.dup2_log STDERR_FILENO)).emit (.signal SIGHUP)).emit (.signal SIGINT)).emit
      (.signal SIGTERM)).emit (.log_info (str "Started")))).sock_fd = -1 := h6.2.1
  generalize ((((((((((State.emit { s6 with log_file := r.ret } (.setlinebuf 0)).emit
      (.setlinebuf 1)).emit (.setlinebuf 2)).emit (.dup2_log STDOUT_FILENO)).emit
      (.dup2_log STDERR_FILENO)).emit (.signal SIGHUP)).emit (.signal SIGINT)).emit
      (.signal SIGTERM)).emit (.log_info (str "Started")))) = s7 at h6' hsock ⊢
  refine sound_sys _ _ _ (by decide) (by intro fd; simp) ?_ (handlers_of_late _ h6')
    h6'.2 ?_
  · intro r rest hf
    have hr : r.ret = -1 := hf
    simp [hr, fail_at, die_eq, State.emit, runs_cleanup, error_text, hsock]
  intro r
  have h8 := late_emit s7 (.sys .socket) h6' (by simp)
  generalize s7.emit (.sys .socket) = s8 at h8 ⊢
  try dsimp only
  have h8' : Late { s8 with sock_fd := r.ret } := h8
  refine sound_ite _ _ _ (fun _ => sound_die_late _ _ _ h8') (fun _ => ?_)
  -- bind
  have h9 := late_emit _ (.setsockopt r.ret) h8' (by simp)
  generalize (State.emit { s8 with sock_fd := r.ret } (.setsockopt r.ret)) = s9 at h9 ⊢
  refine sound_sys _ _ _ (by decide) (by intro fd; simp) ?_ (handlers_of_late _ h9)
    h9.2 ?_
  · intro r rest hf
    have hr : r.ret = -1 := hf
    simp [hr, fail_at, die_eq, State.emit, runs_cleanup, error_text]
  intro r
  have h10 := late_emit s9 (.sys .bind) h9 (by simp)
  generalize s9.emit (.sys .bind) = s10 at h10 ⊢
  try dsimp only
  refine sound_ite _ _ _ (fun _ => sound_die_late _ _ _ h10) (fun _ => ?_)
  -- listen
  refine sound_sys _ _ _ (by decide) (by intro fd; simp) ?_ (handlers_of_late _ h10)
    h10.2 ?_
  · intro r rest hf
    have hr : r.ret = -1 := hf
    simp [hr, fail_at, die_eq, State.emit, runs_cleanup, error_text]
  intro r
  have h11 := late_emit s10 (.sys .listen) h10 (by simp)
  generalize s10.emit (.sys .listen) = s11 at h11 ⊢
  try dsimp only
  refine sound_ite _ _ _ (fun _ => sound_die_late _ _ _ h11) (fun _ => ?_)
  have h12 := late_emit s11 (.log_info (str "Waiting for a connection")) h11 (by simp)
  exact sound_serve _ _ h12.1 h12.2

/-! ## C1: the quit command -/

theorem connected_status :
    (main 4242 (State.init none) connected).status = .waiting (.read 7) := by decide

/-- C1, as stated, fails: the chunk of the five bytes `quit` and NUL is not `quit` after
removal of a trailing newline, yet the loop closes the connection and the process ends
with status 0. -/
theorem quit_nul_terminates :
    quit_nul.isChunk ∧ strip_newline quit_nul.data ≠ str "quit" ∧
    (main 4242 (State.init none) (connected ++ [quit_nul])).status = .exited 0 ∧
    Effect.close 7 ∈ (main 4242 (State.init none) (connected ++ [quit_nul])).trace.drop
      (main 4242 (State.init none) connected).trace.length := by
  decide

/-- C1, amended: in the Connected state, for a chunk of 1 to 1023 bytes, the loop closes
the connection and the process terminates (status 0) if and only if the chunk, after
removal of at most one trailing newline and cut at its first NUL byte, is exactly
`quit`; otherwise the process stays Connected to the same client and closes nothing. -/
theorem quit_iff_cstring (pid : Int) (pf : Option (List Byte)) (st : List Sys) (fd : Int)
    (r : Sys) (hc : (main pid (State.init pf) st).status = .waiting (.read fd))
    (hr : r.isChunk) :
    ((main pid (State.init pf) (st ++ [r])).status = .exited 0 ↔
      cstr (strip_newline r.data) = str "quit") ∧
    (Effect.close fd ∈ (main pid (State.init pf) (st ++ [r])).trace.drop
        (main pid (State.init pf) st).trace.length ↔
      cstr (strip_newline r.data) = str "quit") ∧
    (cstr (strip_newline r.data) ≠ str "quit" →
      (main pid (State.init pf) (st ++ [r])).status = .waiting (.read fd)) := by
  rw [(main_sound pid pf).read st fd [r] hc, serve_chunk fd _ r [] hr]
  by_cases hq : cstr (strip_newline r.data) = str "quit"
  · simp only [hq, if_true, epilogue_eq, State.emit, after_chunk, true_iff, ne_eq,
      not_true_eq_false, false_implies, and_true, true_and]
    simp
  · simp only [hq, if_false, serve_nil_read, after_chunk, false_iff, ne_eq,
      not_false_eq_true, true_implies, and_true]
    simp

/-- The amended C1 at a concrete run: the chunk `hello` and a newline. -/
theorem quit_iff_cstring_witness :
    ((main 4242 (State.init none) (connected ++ [hello])).status = .exited 0 ↔
      cstr (strip_newline hello.data) = str "quit") ∧
    (Effect.close 7 ∈ (main 4242 (State.init none) (connected ++ [hello])).trace.drop
        (main 4242 (State.init none) connected).trace.length ↔
      cstr (strip_newline hello.data) = str "quit") ∧
    (cstr (strip_newline hello.data) ≠ str "quit" →
      (main 4242 (State.init none) (connected ++ [hello])).status = .waiting (.read 7)) :=
  quit_iff_cstring 4242 none connected 7 hello connected_status (by decide)

/-! ## C8: the line logged for a chunk -/

/-- C8, as stated, fails: the chunk `ab`, NUL, `cd` is not the quit command, and the
line logged is `Read ab`, not `Read ` followed by the five bytes of the chunk. -/
theorem nul_chunk_logged_cut :
    ab_nul_cd.isChunk ∧ strip_newline ab_nul_cd.data ≠ str "quit" ∧
    (main 4242 (State.init none) (connected ++ [ab_nul_cd])).trace =
      (main 4242 (State.init none) connected).trace ++
        [.sys (.read 7), .log_info (str "Read ab")] ∧
    str "Read ab" ≠ str "Read " ++ strip_newline ab_nul_cd.data := by
  decide

/-- C8, amended: in the Connected state, for a chunk of 1 to 1023 bytes whose content,
after removal of at most one trailing newline and cut at its first NUL byte, is not
`quit`, one step logs exactly one line whose message is `Read ` followed by the chunk
with at most one trailing newline removed and cut at its first NUL byte, leaves the
process Connected to the same client, closes nothing and writes nothing to the
client. -/
theorem read_logs_cstring (pid : Int) (pf : Option (List Byte)) (st : List Sys) (fd : Int)
    (r : Sys) (hc : (main pid (State.init pf) st).status = .waiting (.read fd))
    (hr : r.isChunk) (hq : cstr (strip_newline r.data) ≠ str "quit") :
    (main pid (State.init pf) (st ++ [r])).trace =
      (main pid (State.init pf) st).trace ++
        [.sys (.read fd), .log_info (str "Read " ++ cstr (strip_newline r.data))] ∧
    (main pid (State.init pf) (st ++ [r])).status = .waiting (.read fd) ∧
    (∀ fd' bytes, Effect.write fd' bytes ∉ (main pid (State.init pf) (st ++ [r])).trace.drop
      (main pid (State.init pf) st).trace.length) ∧
    (∀ fd', Effect.close fd' ∉ (main pid (State.init pf) (st ++ [r])).trace.drop
      (main pid (State.init pf) st).trace.length) ∧
    (main pid (State.init pf) (st ++ [r])).sock_fd = (main pid (State.init pf) st).sock_fd ∧
    (main pid (State.init pf) (st ++ [r])).log_file = (main pid (State.init pf) st).log_file ∧
    (main pid (State.init pf) (st ++ [r])).pid_file = (main pid (State.init pf) st).pid_file := by
  rw [(main_sound pid pf).read st fd [r] hc, serve_chunk fd _ r [] hr]
  simp only [hq, if_false, serve_nil_read, after_chunk]
  simp

/-- The amended C8 at a concrete run: the chunk `ab`, NUL, `cd`. -/
theorem read_logs_cstring_witness :
    (main 4242 (State.init none) (connected ++ [ab_nul_cd])).trace =
      (main 4242 (State.init none) connected).trace ++
        [.sys (.read 7), .log_info (str "Read " ++ cstr (strip_newline ab_nul_cd.data))] ∧
    (main 4242 (State.init none) (connected ++ [ab_nul_cd])).status = .waiting (.read 7) ∧
    (∀ fd' bytes, Effect.write fd' bytes ∉
      (main 4242 (State.init none) (connected ++ [ab_nul_cd])).trace.drop
        (main 4242 (State.init none) connected).trace.length) ∧
    (∀ fd', Effect.close fd' ∉
      (main 4242 (State.init none) (connected ++ [ab_nul_cd])).trace.drop
        (main 4242 (State.init none) connected).trace.length) ∧
    (main 4242 (State.init none) (connected ++ [ab_nul_cd])).sock_fd =
      (main 4242 (State.init none) connected).sock_fd ∧
    (main 4242 (State.init none) (connected ++ [ab_nul_cd])).log_file =
      (main 4242 (State.init none) connected).log_file ∧
    (main 4242 (State.init none) (connected ++ [ab_nul_cd])).pid_file =
      (main 4242 (State.init none) connected).pid_file :=
  read_logs_cstring 4242 none connected 7 ab_nul_cd connected_status (by decide) (by decide)

/-! ## C10: buffer indices -/

theorem terminate_and_strip_in_bounds (n : Int) (b : Buf) (hb : b.bytes.length = 1024)
    (hf : b.fault = false) (ha : b.accesses = []) (h1 : 1 ≤ n) (h2 : n ≤ 1023) :
    (terminate_and_strip n b).fault = false ∧
    ((terminate_and_strip n b).accesses = [n, n - 1] ∨
      (terminate_and_strip n b).accesses = [n, n - 1, n - 1]) := by
  have hin1 : b.inBounds n = true := by
    simp only [Buf.inBounds, hb, Bool.and_eq_true, decide_eq_true_eq]; omega
  have hin2 : ∀ (bytes : List Byte) acc f, bytes.length = 1024 →
      Buf.inBounds { bytes := bytes, accesses := acc, fault := f } (n - 1) = true := by
    intro bytes acc f hl
    simp only [Buf.inBounds, hl, Bool.and_eq_true, decide_eq_true_eq]; omega
  have hl1 : (b.bytes.set n.toNat 0).length = 1024 := by rw [List.length_set]; exact hb
  unfold terminate_and_strip
  simp only [Buf.write, Buf.read, hin1, if_true, hf, ha, hin2 _ _ _ hl1]
  split <;> simp

/-- C10: for every result `r` of the `read` with `-1 ≤ r ≤ 1023`, in the Connected state,
no buffer access of the loop body is outside the array: the indices evaluated are `r`
and `r - 1` (the latter once or twice) when `1 ≤ r`, all between 0 and 1023, and no
index is evaluated when `r` is 0 or -1. -/
theorem buffer_indices_in_bounds (pid : Int) (pf : Option (List Byte)) (st : List Sys)
    (fd : Int) (r : Sys) (hc : (main pid (State.init pf) st).status = .waiting (.read fd))
    (hlo : -1 ≤ r.ret) (hhi : r.ret ≤ 1023) :
    (main pid (State.init pf) (st ++ [r])).status ≠ .undefined ∧
    ∃ new, (main pid (State.init pf) (st ++ [r])).indexed =
        (main pid (State.init pf) st).indexed ++ new ∧
      (∀ i ∈ new, 0 ≤ i ∧ i ≤ 1023) ∧
      (1 ≤ r.ret → new = [r.ret, r.ret - 1] ∨ new = [r.ret, r.ret - 1, r.ret - 1]) ∧
      (r.ret = 0 ∨ r.ret = -1 → new = []) := by
  rw [(main_sound pid pf).read st fd [r] hc, serve]
  dsimp only
  by_cases hm : r.ret = -1
  · simp only [hm, if_true, die_eq, State.emit]
    refine ⟨by simp, [], by simp, by simp, by simp, by simp⟩
  · by_cases hz : r.ret = 0
    · simp only [hz, if_true, serve_nil_accept, State.emit]
      refine ⟨by simp, [], by simp, by simp, by simp, by simp⟩
    · have h1 : 1 ≤ r.ret := by omega
      obtain ⟨hf, hacc⟩ := terminate_and_strip_in_bounds r.ret (Buf.zeroed.store r.data)
        (store_length _) (store_fault _) (store_accesses _) h1 hhi
      simp only [hm, hz, if_false, hf, Bool.false_eq_true]
      refine ⟨?_, (terminate_and_strip r.ret (Buf.zeroed.store r.data)).accesses, ?_, ?_, ?_, ?_⟩
      · split
        · simp [epilogue_eq]
        · simp [serve_nil_read]
      · split
        · simp [epilogue_eq, State.emit]
        · simp [serve_nil_read, State.emit]
      · intro i hi
        rcases hacc with h | h
        · rw [h] at hi
          simp only [List.mem_cons, List.mem_singleton, List.not_mem_nil, or_false] at hi
          rcases hi with h' | h' <;> omega
        · rw [h] at hi
          simp only [List.mem_cons, List.mem_singleton, List.not_mem_nil, or_false] at hi
          rcases hi with h' | h' | h' <;> omega
      · intro _; exact hacc
      · intro h
        rcases h with h | h <;> exact h.elim

/-- C10 at a concrete run: the chunk `hello` and a newline, of six bytes. -/
theorem buffer_indices_in_bounds_witness :
    (main 4242 (State.init none) (connected ++ [hello])).status ≠ .undefined ∧
    ∃ new, (main 4242 (State.init none) (connected ++ [hello])).indexed =
        (main 4242 (State.init none) connected).indexed ++ new ∧
      (∀ i ∈ new, 0 ≤ i ∧ i ≤ 1023) ∧
      (1 ≤ hello.ret → new = [hello.ret, hello.ret - 1] ∨
        new = [hello.ret, hello.ret - 1, hello.ret - 1]) ∧
      (hello.ret = 0 ∨ hello.ret = -1 → new = []) :=
  buffer_indices_in_bounds 4242 none connected 7 hello connected_status (by decide) (by decide)

/-! ## C2: client sessions -/

theorem chunk_result_isChunk (d : List Byte) (h1 : 1 ≤ d.length) (h2 : d.length ≤ 1023) :
    (chunk_result d).isChunk := ⟨rfl, h1, h2⟩

theorem serve_chunks (fd : Int) (ds : List (List Byte)) (s : State) (script : List Sys)
    (h : ∀ d ∈ ds, plain_chunk d) :
    serve (some fd) s (ds.map chunk_result ++ script) =
      serve (some fd) (after_chunks fd ds s) script := by
  induction ds generalizing s with
  | nil => rfl
  | cons d ds ih =>
    have hd := h d (List.mem_cons_self _ _)
    have hq : ¬ cstr (strip_newline (chunk_result d).data) = str "quit" := hd.2.2
    rw [List.map_cons, List.cons_append,
      serve_chunk fd s _ _ (chunk_result_isChunk d hd.1 hd.2.1), if_neg hq]
    exact ih _ (fun d' hd' => h d' (List.mem_cons_of_mem _ hd'))

theorem serve_eof (fd : Int) (s : State) (script : List Sys) :
    serve (some fd) s (eof_result :: script) =
      serve none (((s.emit (.sys (.read fd))).emit
        (.log_info (str "Client disconnected"))).emit (.close fd)) script := by
  rw [serve]
  simp [eof_result]

theorem serve_accept (fd : Int) (s : State) (script : List Sys) (h : fd ≠ -1) :
    serve none s (accept_result fd :: script) =
      serve (some fd) (s.emit (.sys .accept)) script := by
  rw [serve]
  simp [accept_result, h]

theorem serve_session (x : Session) (s : State) (script : List Sys) (h : x.plain) :
    serve none s (x.script ++ script) = serve none (after_session x s) script := by
  unfold Session.script after_session
  rw [List.cons_append, serve_accept _ _ _ h.1, List.append_assoc,
    serve_chunks _ _ _ _ h.2, List.singleton_append, serve_eof]

theorem serve_sessions (xs : List Session) (s : State) (script : List Sys)
    (h : ∀ x ∈ xs, x.plain) :
    serve none s (sessions_script xs ++ script) = serve none (after_sessions xs s) script := by
  induction xs generalizing s with
  | nil => rfl
  | cons x xs ih =>
    rw [sessions_script, List.append_assoc, serve_session x s _ (h x (List.mem_cons_self _ _))]
    exact ih _ (fun x' hx' => h x' (List.mem_cons_of_mem _ hx'))

theorem cleanup_effects_no_sys (a b : Int) (c : Call) :
    Effect.sys c ∉ cleanup_effects a b := by
  unfold cleanup_effects
  by_cases h1 : a = -1 <;> by_cases h2 : b = NULL <;> simp [h1, h2]

/-- C2, as stated, fails: the chunk `quit`, NUL, `junk` is not the quit command (it is
neither `quit` nor `quit` and a newline), yet in a first session that sends it and then
disconnects the process exits with status 0 at that chunk: the rest of the script, the
disconnect and a second session that sends `quit`, is never consumed. -/
theorem nul_quit_ends_first_session :
    ¬ quit_command quit_nul_junk ∧
    (chunk_result quit_nul_junk).isChunk ∧
    main 4242 (State.init none)
      (boot ++ ((⟨7, [quit_nul_junk]⟩ : Session).script ++
        accept_result 9 :: [chunk_result (str "quit\n")])) =
      main 4242 (State.init none) (boot ++ [accept_result 7, chunk_result quit_nul_junk]) ∧
    (main 4242 (State.init none)
      (boot ++ ((⟨7, [quit_nul_junk]⟩ : Session).script ++
        accept_result 9 :: [chunk_result (str "quit\n")]))).status = .exited 0 ∧
    Effect.log_info (str "Client disconnected") ∉ (main 4242 (State.init none)
      (boot ++ ((⟨7, [quit_nul_junk]⟩ : Session).script ++
        accept_result 9 :: [chunk_result (str "quit\n")]))).trace ∧
    Effect.sys (.read 9) ∉ (main 4242 (State.init none)
      (boot ++ ((⟨7, [quit_nul_junk]⟩ : Session).script ++
        accept_result 9 :: [chunk_result (str "quit\n")]))).trace := by
  decide

/-- C2, amended: a chunk counts as the quit command when its content, after removal of
at most one trailing newline and cut at its first NUL byte, is `quit`.  From the
Listening state, after `n` sessions of chunks of 1 to 1023 bytes that are not the quit
command in that sense, each ended by a zero-length read, the process is Listening again
after each session and accepts the next client; in the next session, at the first quit
chunk, it closes the client, runs `cleanup` (which removes the PID file) and exits with
status 0.  That exit is the only one of the run, and nothing of the script after the
quit chunk is consumed: no `accept` or `read` follows it. -/
theorem quit_after_sessions (pid : Int) (pf : Option (List Byte)) (st : List Sys)
    (hL : (main pid (State.init pf) st).status = .waiting .accept)
    (xs : List Session) (hxs : ∀ x ∈ xs, x.plain)
    (fd : Int) (hfd : fd ≠ -1) (pre : List (List Byte)) (hpre : ∀ d ∈ pre, plain_chunk d)
    (q : List Byte) (hq1 : 1 ≤ q.length) (hq2 : q.length ≤ 1023) (hq : quit_chunk q)
    (rest : List Sys) :
    (∀ k, k ≤ xs.length →
      (main pid (State.init pf) (st ++ sessions_script (xs.take k))).status
        = .waiting .accept) ∧
    (∀ k (hk : k < xs.length),
      (main pid (State.init pf) (st ++ (sessions_script (xs.take k) ++
        [accept_result (xs.get ⟨k, hk⟩).client_fd]))).status
        = .waiting (.read (xs.get ⟨k, hk⟩).client_fd)) ∧
    (main pid (State.init pf)
      (st ++ (sessions_script xs ++ accept_result fd :: pre.map chunk_result))).status
        = .waiting (.read fd) ∧
    (main pid (State.init pf)
      ((st ++ (sessions_script xs ++ accept_result fd :: pre.map chunk_result)) ++
        chunk_result q :: rest)).status = .exited 0 ∧
    (main pid (State.init pf)
      ((st ++ (sessions_script xs ++ accept_result fd :: pre.map chunk_result)) ++
        chunk_result q :: rest)).pid_file = none ∧
    (∃ tail, (main pid (State.init pf)
      ((st ++ (sessions_script xs ++ accept_result fd :: pre.map chunk_result)) ++
        chunk_result q :: rest)).trace =
      (main pid (State.init pf)
        (st ++ (sessions_script xs ++ accept_result fd :: pre.map chunk_result))).trace ++
        [.sys (.read fd), .log_info (str "Read quit"), .close fd] ++ tail ++ [.exit 0] ∧
      Effect.remove_pid ∈ tail ∧ (∀ c, Effect.sys c ∉ tail) ∧
      (∀ code, Effect.exit code ∉ tail) ∧
      (∀ code, Effect.exit code ∉ (main pid (State.init pf)
        (st ++ (sessions_script xs ++ accept_result fd :: pre.map chunk_result))).trace)) := by
  have hsound := main_sound pid pf
  have hplain_take : ∀ k, ∀ x ∈ xs.take k, x.plain :=
    fun k x hx => hxs x (List.mem_of_mem_take hx)
  have hB : (main pid (State.init pf)
      (st ++ (sessions_script xs ++ accept_result fd :: pre.map chunk_result))).status
        = .waiting (.read fd) := by
    rw [hsound.accept st _ hL, serve_sessions _ _ _ hxs, serve_accept _ _ _ hfd]
    have := serve_chunks fd pre ((after_sessions xs (main pid (State.init pf) st)).emit
      (.sys .accept)) [] hpre
    rw [List.append_nil] at this
    rw [this, serve_nil_read]
  refine ⟨?_, ?_, hB, ?_⟩
  · intro k _
    rw [hsound.accept st _ hL]
    have := serve_sessions (xs.take k) (main pid (State.init pf) st) [] (hplain_take k)
    rw [List.append_nil] at this
    rw [this, serve_nil_accept]
  · intro k hk
    rw [hsound.accept st _ hL, serve_sessions _ _ _ (hplain_take k),
      serve_accept _ _ _ (hxs _ (List.get_mem _ _ _)).1, serve_nil_read]
  · have hne : ∀ code, Effect.exit code ∉ (main pid (State.init pf)
        (st ++ (sessions_script xs ++ accept_result fd :: pre.map chunk_result))).trace := by
      intro code hmem
      have := hsound.exits _ code hmem
      rw [hB] at this
      exact Status.noConfusion this
    have hqc : cstr (strip_newline (chunk_result q).data) = str "quit" := hq
    rw [hsound.read _ fd _ hB, serve_chunk fd _ _ _ (chunk_result_isChunk q hq1 hq2),
      if_pos hqc, epilogue_eq]
    refine ⟨rfl, rfl, ?_⟩
    refine ⟨cleanup_effects
      (main pid (State.init pf)
        (st ++ (sessions_script xs ++ accept_result fd :: pre.map chunk_result))).sock_fd
      (main pid (State.init pf)
        (st ++ (sessions_script xs ++ accept_result fd :: pre.map chunk_result))).log_file ++
      [.log_info (str "Quitting after 'quit' command")], ?_, ?_, ?_, ?_, hne⟩
    · have hs : str "Read " ++ str "quit" = str "Read quit" := by decide
      simp [after_chunk, State.emit, hqc, hs]
    · simp [cleanup_effects]
    · intro c hmem
      simp only [List.mem_append, List.mem_singleton, reduceCtorEq, or_false] at hmem
      exact cleanup_effects_no_sys _ _ _ hmem
    · intro code hmem
      simp only [List.mem_append, List.mem_singleton, reduceCtorEq, or_false] at hmem
      exact cleanup_effects_no_exit _ _ _ hmem

theorem boot_status : (main 4242 (State.init none) boot).status = .waiting .accept := by
  decide

/-- The amended C2 at a concrete run: two sessions on the descriptor 7, the first with the chunk
`hello`, the second empty, then a session on the descriptor 9 that sends `hello` and
then `quit`; one more result is left in the script. -/
theorem quit_after_sessions_witness :
    (main 4242 (State.init none)
      ((boot ++ (sessions_script [⟨7, [str "hello\n"]⟩, ⟨7, []⟩] ++
        accept_result 9 :: [str "hello\n"].map chunk_result)) ++
        chunk_result (str "quit\n") :: [accept_result 11])).status = .exited 0 ∧
    (main 4242 (State.init none)
      ((boot ++ (sessions_script [⟨7, [str "hello\n"]⟩, ⟨7, []⟩] ++
        accept_result 9 :: [str "hello\n"].map chunk_result)) ++
        chunk_result (str "quit\n") :: [accept_result 11])).pid_file = none :=
  have h := quit_after_sessions 4242 none boot boot_status
    [⟨7, [str "hello\n"]⟩, ⟨7, []⟩] (by decide) 9 (by decide) [str "hello\n"] (by decide)
    (str "quit\n") (by decide) (by decide) (by decide) [accept_result 11]
  ⟨h.2.2.2.1, h.2.2.2.2.1⟩

/-! ## C4 and C9: the PID marker file cannot be created -/

/-- The run in which `open` on the PID marker file fails, in the child of the second
fork: the error is logged and the process exits, nothing else happens. -/
theorem main_pid_failure (pid : Int) (pf : Option (List Byte)) (f1 ss f2 op : Sys)
    (rest : List Sys) (h1 : f1.ret ≠ -1) (h1' : ¬ f1.ret > 0) (hs : ss.ret ≠ -1)
    (h2 : f2.ret ≠ -1) (h2' : ¬ f2.ret > 0) (hfail : pf.isSome = true ∨ op.ret = -1) :
    main pid (State.init pf) (f1 :: ss :: f2 :: op :: rest) =
      { sock_fd := -1, log_file := NULL, pid_file := pf
        trace := [.sys .fork, .sys .setsid, .sys .fork, .sys .open,
          .log_info (str "Error: Failed to open pid file: " ++ cstr op.err),
          .exit EXIT_FAILURE]
        indexed := [], status := .exited EXIT_FAILURE } := by
  have hc : (if pf.isSome = true then (-1 : Int) else op.ret) = -1 := by
    rcases hfail with h | h
    · simp [h]
    · simp [h]
  simp [main, sys, h1, h1', hs, h2, h2', hc, State.init, State.emit, exit]

/-- C4: when the exclusive creation of the PID marker file fails, in particular because
`daemon.pid` exists, the process exits with a non-zero status and has made none of the
calls `socket`, `setsockopt`, `bind`, `listen`; `sock_fd` is still -1. -/
theorem pid_failure_before_socket (pid : Int) (pf : Option (List Byte)) (f1 ss f2 op : Sys)
    (rest : List Sys) (h1 : f1.ret ≠ -1) (h1' : ¬ f1.ret > 0) (hs : ss.ret ≠ -1)
    (h2 : f2.ret ≠ -1) (h2' : ¬ f2.ret > 0) (hfail : pf.isSome = true ∨ op.ret = -1) :
    (main pid (State.init pf) (f1 :: ss :: f2 :: op :: rest)).status
      = .exited EXIT_FAILURE ∧
    EXIT_FAILURE ≠ 0 ∧
    Effect.sys .socket ∉ (main pid (State.init pf) (f1 :: ss :: f2 :: op :: rest)).trace ∧
    Effect.sys .bind ∉ (main pid (State.init pf) (f1 :: ss :: f2 :: op :: rest)).trace ∧
    Effect.sys .listen ∉ (main pid (State.init pf) (f1 :: ss :: f2 :: op :: rest)).trace ∧
    (∀ fd, Effect.setsockopt fd ∉
      (main pid (State.init pf) (f1 :: ss :: f2 :: op :: rest)).trace) ∧
    (main pid (State.init pf) (f1 :: ss :: f2 :: op :: rest)).sock_fd = -1 := by
  rw [main_pid_failure pid pf f1 ss f2 op rest h1 h1' hs h2 h2' hfail]
  simp [EXIT_FAILURE]

/-- C4 at a concrete run: `daemon.pid` holds `4000`, and the script has results for the
calls a successful start would make. -/
theorem pid_failure_before_socket_witness :
    (main 4242 (State.init (some (str "4000")))
      ({ ret := 0 } :: { ret := 4242 } :: { ret := 0 } ::
        { ret := 3, err := str "File exists" } :: boot)).status = .exited EXIT_FAILURE ∧
    Effect.sys .socket ∉ (main 4242 (State.init (some (str "4000")))
      ({ ret := 0 } :: { ret := 4242 } :: { ret := 0 } ::
        { ret := 3, err := str "File exists" } :: boot)).trace :=
  have h := pid_failure_before_socket 4242 (some (str "4000")) { ret := 0 } { ret := 4242 }
    { ret := 0 } { ret := 3, err := str "File exists" } boot (by decide) (by decide)
    (by decide) (by decide) (by decide) (Or.inl rfl)
  ⟨h.1, h.2.2.1⟩

/-- C9: when the exclusive creation fails because `daemon.pid` exists, the file keeps
its content, and the process has not run `cleanup`: it has not logged `Cleanup`, has
called neither `remove` nor `close` nor `fclose`, and has written no PID. -/
theorem existing_pid_file_untouched (pid : Int) (content : List Byte) (f1 ss f2 op : Sys)
    (rest : List Sys) (h1 : f1.ret ≠ -1) (h1' : ¬ f1.ret > 0) (hs : ss.ret ≠ -1)
    (h2 : f2.ret ≠ -1) (h2' : ¬ f2.ret > 0) :
    (main pid (State.init (some content)) (f1 :: ss :: f2 :: op :: rest)).pid_file
      = some content ∧
    Effect.remove_pid ∉
      (main pid (State.init (some content)) (f1 :: ss :: f2 :: op :: rest)).trace ∧
    Effect.log_info (str "Cleanup") ∉
      (main pid (State.init (some content)) (f1 :: ss :: f2 :: op :: rest)).trace ∧
    (∀ fd, Effect.close fd ∉
      (main pid (State.init (some content)) (f1 :: ss :: f2 :: op :: rest)).trace) ∧
    (∀ f, Effect.fclose f ∉
      (main pid (State.init (some content)) (f1 :: ss :: f2 :: op :: rest)).trace) ∧
    (∀ text, Effect.fprintf_pid text ∉
      (main pid (State.init (some content)) (f1 :: ss :: f2 :: op :: rest)).trace) ∧
    (main pid (State.init (some content)) (f1 :: ss :: f2 :: op :: rest)).status
      = .exited EXIT_FAILURE := by
  rw [main_pid_failure pid (some content) f1 ss f2 op rest h1 h1' hs h2 h2' (Or.inl rfl)]
  have hne : str "Error: Failed to open pid file: " ++ cstr op.err ≠ str "Cleanup" := by
    rw [show str "Error: Failed to open pid file: " =
      (69 : Byte) :: (str "Error: Failed to open pid file: ").tail from by decide,
      show str "Cleanup" = (67 : Byte) :: (str "Cleanup").tail from by decide]
    intro h
    simp only [List.cons_append, List.cons.injEq] at h
    exact absurd h.1 (by decide)
  simp [hne, Ne.symm hne]

/-- C9 at a concrete run: `daemon.pid` holds `4000`. -/
theorem existing_pid_file_untouched_witness :
    (main 4242 (State.init (some (str "4000")))
      ({ ret := 0 } :: { ret := 4242 } :: { ret := 0 } ::
        { ret := 3, err := str "File exists" } :: boot)).pid_file = some (str "4000") ∧
    Effect.remove_pid ∉ (main 4242 (State.init (some (str "4000")))
      ({ ret := 0 } :: { ret := 4242 } :: { ret := 0 } ::
        { ret := 3, err := str "File exists" } :: boot)).trace :=
  have h := existing_pid_file_untouched 4242 (str "4000") { ret := 0 } { ret := 4242 }
    { ret := 0 } { ret := 3, err := str "File exists" } boot (by decide) (by decide)
    (by decide) (by decide) (by decide)
  ⟨h.1, h.2.1⟩

/-! ## C6: fatal failures -/

/-- C6, as stated, fails: when the first `fork` fails the process logs the error and
exits with `EXIT_FAILURE`, and `cleanup` has not run: nothing logged `Cleanup` and
`remove` was not called. -/
theorem fork_failure_skips_cleanup :
    (main 4242 (State.init none) [enomem]).trace =
      [.sys .fork, .log_info (str "Error: Cannot fork: Cannot allocate memory"),
        .exit EXIT_FAILURE] ∧
    Effect.log_info (str "Cleanup") ∉ (main 4242 (State.init none) [enomem]).trace ∧
    Effect.remove_pid ∉ (main 4242 (State.init none) [enomem]).trace := by
  decide

/-- C6, amended: whatever the process has done so far, when the call it waits in fails
(either `fork`, `setsid`, `open` of the PID file, `fopen` of the log file, `socket`,
`bind`, `listen`, `accept` or `read`), the error is logged with the description of the
OS error and the process exits at once with `EXIT_FAILURE`, which is not 0, consuming
nothing more of the script; `cleanup` runs before the exit exactly for the failures
that go through `die` (log file, socket, bind, listen, accept, read) and not for the
failures of `fork`, `setsid` and the PID file. -/
theorem fatal_failure_policy (pid : Int) (pf : Option (List Byte)) (st : List Sys)
    (c : Call) (r : Sys) (rest : List Sys)
    (hw : (main pid (State.init pf) st).status = .waiting c)
    (hf : Failed c r (main pid (State.init pf) st)) :
    (main pid (State.init pf) (st ++ r :: rest)).status = .exited EXIT_FAILURE ∧
    EXIT_FAILURE ≠ 0 ∧
    (main pid (State.init pf) (st ++ r :: rest)).trace =
      (main pid (State.init pf) st).trace ++
        [.sys c, .log_info (str "Error: " ++ str (error_text c) ++ str ": " ++ cstr r.err)] ++
        (if c = .fork ∨ c = .setsid ∨ c = .open then []
          else cleanup_effects (main pid (State.init pf) st).sock_fd
            (main pid (State.init pf) st).log_file) ++
        [.exit EXIT_FAILURE] ∧
    (main pid (State.init pf) (st ++ r :: rest)).pid_file =
      (if c = .fork ∨ c = .setsid ∨ c = .open then (main pid (State.init pf) st).pid_file
        else none) := by
  rw [(main_sound pid pf).fail st c r rest hw hf]
  refine ⟨rfl, by decide, ?_, ?_⟩
  · cases c <;> simp [fail_at, runs_cleanup]
  · cases c <;> simp [fail_at, runs_cleanup]

/-- The amended C6 at a concrete run: a `read` on the connected client fails. -/
theorem fatal_failure_policy_witness :
    (main 4242 (State.init none) (connected ++ enomem :: [hello])).status
      = .exited EXIT_FAILURE ∧
    (main 4242 (State.init none) (connected ++ enomem :: [hello])).pid_file =
      (if Call.read 7 = .fork ∨ Call.read 7 = .setsid ∨ Call.read 7 = .open then
        (main 4242 (State.init none) connected).pid_file
        else none) :=
  have h := fatal_failure_policy 4242 none connected (.read 7) enomem [hello]
    connected_status (show enomem.ret = -1 from rfl)
  ⟨h.1, h.2.2.2⟩

/-! ## C7: signals -/

/-- C7: in every state of a run in which the process is alive and the handler of the
signal is installed, delivery of `SIGHUP`, `SIGINT` or `SIGTERM` logs the signal, runs
`cleanup` (the listening socket is closed when `sock_fd` is not -1, the log file, which
is open, is closed, the PID file is removed), logs the reason of the shutdown and exits
with status 0; the number logged for the signal is 1, 2 or 15. -/
theorem signal_shutdown (pid : Int) (pf : Option (List Byte)) (st : List Sys) (signum : Int)
    (hsig : signum = SIGHUP ∨ signum = SIGINT ∨ signum = SIGTERM)
    (ha : alive (main pid (State.init pf) st) = true)
    (hi : handler_installed signum (main pid (State.init pf) st) = true) :
    (deliver signum (main pid (State.init pf) st)).status = .exited 0 ∧
    (deliver signum (main pid (State.init pf) st)).pid_file = none ∧
    (main pid (State.init pf) st).log_file ≠ NULL ∧
    (deliver signum (main pid (State.init pf) st)).trace =
      (main pid (State.init pf) st).trace ++
        [.log_info (str "Received signal: " ++ fmt_d signum), .log_info (str "Cleanup")] ++
        (if (main pid (State.init pf) st).sock_fd ≠ -1 then
          [.close (main pid (State.init pf) st).sock_fd] else []) ++
        [.fclose (main pid (State.init pf) st).log_file, .remove_pid,
          .log_info (str "Quitting after signal"), .exit 0] ∧
    (fmt_d signum = str "1" ∨ fmt_d signum = str "2" ∨ fmt_d signum = str "15") := by
  have hlog := (main_sound pid pf).handlers st signum hi
  have hnum : fmt_d signum = str "1" ∨ fmt_d signum = str "2" ∨ fmt_d signum = str "15" := by
    rcases hsig with h | h | h <;> subst h <;> decide
  have hd : deliver signum (main pid (State.init pf) st) =
      signal_handler signum (main pid (State.init pf) st) := by
    simp [deliver, ha, hi]
  rw [hd, signal_handler_eq]
  refine ⟨rfl, rfl, hlog, ?_, hnum⟩
  simp [cleanup_effects, hlog, EXIT_SUCCESS]

theorem connected_hello_installed :
    handler_installed SIGTERM (main 4242 (State.init none) (connected ++ [hello])) = true := by
  decide

/-- C7 at a concrete run: `SIGTERM` arrives when the connected client has sent `hello`. -/
theorem signal_shutdown_witness :
    handler_installed SIGTERM (main 4242 (State.init none) (connected ++ [hello])) = true ∧
    (deliver SIGTERM (main 4242 (State.init none) (connected ++ [hello]))).status = .exited 0 ∧
    (deliver SIGTERM (main 4242 (State.init none) (connected ++ [hello]))).pid_file = none :=
  have h := signal_shutdown 4242 none (connected ++ [hello]) SIGTERM (Or.inr (Or.inr rfl))
    (by decide) connected_hello_installed
  ⟨connected_hello_installed, h.1, h.2.1⟩

/-! ## C5: `cleanup` twice -/

/-- A second run of `cleanup` repeats the calls of the first: the two globals it tests
are not reset by the first run. -/
theorem cleanup_twice_trace (s : State) :
    (cleanup (cleanup s)).trace =
      (cleanup s).trace ++ cleanup_effects s.sock_fd s.log_file := by
  simp [cleanup_eq]

/-- C5 fails on the code: in the run that receives `quit`, `main` calls `cleanup` at
line 177, and the handlers stay installed; when `SIGTERM` arrives before `main`
returns, the handler runs `cleanup` a second time, which calls `close` on the socket 4
and `fclose` on the log file 8192 again, both already closed by the first run. -/
theorem cleanup_twice_closes_again :
    epilogue at_cleanup =
      main 4242 (State.init none) (connected ++ [chunk_result (str "quit\n")]) ∧
    (cleanup at_cleanup).trace.drop at_cleanup.trace.length =
      [.log_info (str "Cleanup"), .close 4, .fclose 8192, .remove_pid] ∧
    handler_installed SIGTERM (cleanup at_cleanup) = true ∧
    (deliver SIGTERM (cleanup at_cleanup)).trace.drop (cleanup at_cleanup).trace.length =
      [.log_info (str "Received signal: 15"), .log_info (str "Cleanup"), .close 4,
        .fclose 8192, .remove_pid, .log_info (str "Quitting after signal"), .exit 0] ∧
    (cleanup (cleanup at_cleanup)).trace.drop (cleanup at_cleanup).trace.length =
      [.log_info (str "Cleanup"), .close 4, .fclose 8192, .remove_pid] := by
  decide

/-! ## C3: the log line -/

theorem cstr_of_no_nul (a : List Byte) (h : ∀ b ∈ a, b ≠ 0) : cstr a = a := by
  induction a with
  | nil => rfl
  | cons x xs ih =>
    have hx : x ≠ 0 := h x (List.mem_cons_self _ _)
    simp [cstr, hx, ih (fun b hb => h b (List.mem_cons_of_mem _ hb))]

/-- What `log_info` writes for every string of the form `ctime` returns (a text without
NUL, then a newline): the text without its last character, which is the last digit of
the year, then the separator, the message and a newline. -/
theorem log_info_ctime (body message : List Byte) (h0 : ∀ b ∈ body, b ≠ 0)
    (hlen : 1 ≤ body.length) :
    log_info (body ++ [10]) message =
      some (body.dropLast ++ str " - " ++ message ++ str "\n") := by
  rcases List.eq_nil_or_concat body with hnil | ⟨init, last, hd⟩
  · subst hnil; simp at hlen
  · rw [List.concat_eq_append] at hd
    subst hd
    have hall : ∀ b ∈ init ++ [last] ++ [10], b ≠ 0 := by
      intro b hb
      simp only [List.mem_append, List.mem_singleton] at hb
      rcases hb with hb | hb
      · exact h0 b (by simpa using hb)
      · rw [hb]; decide
    have hinit : ∀ b ∈ init, b ≠ 0 := fun b hb => h0 b (by simp [hb])
    have hs : strlen (init ++ [last] ++ [10]) = init.length + 2 := by
      unfold strlen
      rw [cstr_of_no_nul _ hall]
      simp
    have hset : (init ++ [last] ++ [10]).set init.length 0 = init ++ 0 :: [10] := by
      rw [List.append_assoc, List.set_append_right _ _ (le_refl _)]
      simp
    simp only [log_info, hs, show ¬ (init.length + 2 < 2) by omega, if_false,
      show init.length + 2 - 2 = init.length by omega, hset, cstr_append_nul,
      cstr_of_no_nul _ hinit, List.dropLast_concat]

/-- C3 fails on the code: for the `ctime` string of the epoch and the message
`Started`, `log_info` writes the timestamp without the last digit of the year. -/
theorem log_info_drops_year_digit :
    log_info (str "Thu Jan  1 00:00:00 1970\n") (str "Started") =
      some (str "Thu Jan  1 00:00:00 197 - Started\n") ∧
    log_info (str "Thu Jan  1 00:00:00 1970\n") (str "Started") ≠
      some (str "Thu Jan  1 00:00:00 1970" ++ str " - " ++ str "Started" ++ str "\n") := by
  decide

end Daemon
